import Mathlib

/-!
# Verification of the newcrawling content-extraction pipeline

A shallow embedding of the Naver-cafe crawling repository's content
extraction layer:

* `content_validator.py` (`ContentValidator`: `validate_content`,
  `clean_content`, `_truncate_content`, ratio and quality scoring),
* `content_extraction_models.py` (`ContentResult`, `ValidationResult`,
  `SelectorAttempt`, `ExtractionConfig` and their `__post_init__` checks),
* `selector_strategies.py` (`SelectorStrategy.extract_with_selectors`,
  `SelectorStrategyManager.extract_with_strategies`),
* `content_extractor.py` (`ContentExtractor.extract_content`).

Python strings are modelled as `List Char`; Python floats as `ℚ` (the
scoring arithmetic involved is exact small-denominator arithmetic, and
every property checked is robust to that reading); Python `int` as `ℤ`
where Python values can be negative (`str.rfind`), `ℕ` for lengths.
Exceptions are modelled with `Except`.  The `re.sub` calls of the source
are executed by a small backtracking regular-expression interpreter
(`matchR`/`subAll` below) whose match order mirrors Python `re`
(leftmost position first, greedy quantifiers, ordered alternation,
single capture group with backreference).  Fuel arguments make all
definitions structurally recursive and hence kernel-executable; the fuel
supplied is always sufficient because every step consumes input.

Scope notes, stated once: Python's `\s` is modelled by the six ASCII
whitespace characters (the repository's data never contains exotic
Unicode spaces), `\d` by ASCII digits, and `\w` by ASCII alphanumerics,
underscore and Hangul syllables — the only word characters occurring in
the crawler's domain.  The `re.IGNORECASE` flags in the source are
inert: the affected patterns contain no cased ASCII letters.
-/

set_option maxHeartbeats 1000000

namespace Crawl

/-- Python `str.isspace`-style class used for `\s`, `str.strip()`:
space, tab, newline, carriage return, vertical tab, form feed. -/
def isPySpace (c : Char) : Bool :=
  c = ' ' || c = '\t' || c = '\n' || c = '\r' || c = '\x0b' || c = '\x0c'

/-- ASCII digit, for `\d`. -/
def isPyDigit (c : Char) : Bool :=
  '0' ≤ c && c ≤ '9'

/-- Hangul syllable block `가-힣` (U+AC00 .. U+D7A3). -/
def isHangul (c : Char) : Bool :=
  0xAC00 ≤ c.val && c.val ≤ 0xD7A3

/-- ASCII letter. -/
def isAsciiLetter (c : Char) : Bool :=
  ('a' ≤ c && c ≤ 'z') || ('A' ≤ c && c ≤ 'Z')

/-- Python `\w` (word character) restricted to the crawler's alphabet:
ASCII alphanumerics, underscore, Hangul syllables. -/
def isPyWord (c : Char) : Bool :=
  isAsciiLetter c || isPyDigit c || c = '_' || isHangul c

/-- The class `[가-힣a-zA-Z0-9]` counted by
`_calculate_meaningful_content_ratio`. -/
def isMeaningfulChar (c : Char) : Bool :=
  isHangul c || isAsciiLetter c || isPyDigit c

/-- The class `[.!?。,]` counted as sentence indicators. -/
def isSentenceIndicator (c : Char) : Bool :=
  c = '.' || c = '!' || c = '?' || c = '。' || c = ','

/-- The class `[가-힣a-zA-Z]` whose maximal runs are the `words` of
`_calculate_meaningful_content_ratio`. -/
def isWordLetter (c : Char) : Bool :=
  isHangul c || isAsciiLetter c

/-- Python `str.lstrip()` on our character model. -/
def pyLstrip (l : List Char) : List Char :=
  l.dropWhile isPySpace

/-- Python `str.rstrip()`. -/
def pyRstrip (l : List Char) : List Char :=
  ((l.reverse.dropWhile isPySpace)).reverse

/-- Python `str.strip()`. -/
def pyStrip (l : List Char) : List Char :=
  pyRstrip (pyLstrip l)

/-- Does `pat` occur as a contiguous substring of `l`?  Models Python's
`pat in l`. -/
def containsSeq (pat : List Char) : List Char → Bool
  | [] => pat.isEmpty
  | c :: rest => pat.isPrefixOf (c :: rest) || containsSeq pat rest

/-- Python `str.split(sep)` for a non-empty separator `p0 :: prest`,
with fuel (first argument) making the recursion structural; fuel
`length` suffices since each step consumes at least one character. -/
def splitSeqF (p0 : Char) (prest : List Char) : List Char → Nat → List (List Char)
  | [], _ => [[]]
  | s, 0 => [s]
  | c :: rest, fuel + 1 =>
    if (p0 :: prest).isPrefixOf (c :: rest) then
      [] :: splitSeqF p0 prest (List.drop prest.length rest) fuel
    else
      match splitSeqF p0 prest rest fuel with
      | [] => [[c]]
      | h :: t => (c :: h) :: t

/-- Python `str.split(sep)` (non-empty separator). -/
def pySplitSeq (p0 : Char) (prest : List Char) (l : List Char) : List (List Char) :=
  splitSeqF p0 prest l l.length

/-- Python `re.split` on a single-character class: one part per gap. -/
def splitOnPred (p : Char → Bool) : List Char → List (List Char)
  | [] => [[]]
  | c :: rest =>
    if p c then [] :: splitOnPred p rest
    else
      match splitOnPred p rest with
      | [] => [[c]]
      | h :: t => (c :: h) :: t

/-- Python `str.replace(pat, repl)` for non-empty `pat = p0 :: prest`:
leftmost, non-overlapping, fuelled. -/
def pyReplaceF (p0 : Char) (prest repl : List Char) : List Char → Nat → List Char
  | [], _ => []
  | s, 0 => s
  | c :: rest, fuel + 1 =>
    if (p0 :: prest).isPrefixOf (c :: rest) then
      repl ++ pyReplaceF p0 prest repl (List.drop prest.length rest) fuel
    else
      c :: pyReplaceF p0 prest repl rest fuel

/-- Python `str.replace` (non-empty pattern). -/
def pyReplace (p0 : Char) (prest repl : List Char) (l : List Char) : List Char :=
  pyReplaceF p0 prest repl l l.length

/-- Maximal runs of characters satisfying `p`: Python
`re.findall(r'[class]+', s)`, fuelled. -/
def tokenRunsF (p : Char → Bool) : List Char → Nat → List (List Char)
  | [], _ => []
  | _, 0 => []
  | c :: rest, fuel + 1 =>
    if p c then
      (c :: rest.takeWhile p) :: tokenRunsF p (rest.dropWhile p) fuel
    else
      tokenRunsF p rest fuel

/-- `re.findall` of a positive character class. -/
def tokenRuns (p : Char → Bool) (l : List Char) : List (List Char) :=
  tokenRunsF p l l.length

/-- Python `str.rfind` generalised to a predicate: index of the last
character satisfying `p`, `-1` when there is none. -/
def lastIdxP (p : Char → Bool) : List Char → ℤ
  | [] => -1
  | c :: rest =>
    let r := lastIdxP p rest
    if 0 ≤ r then r + 1 else if p c then 0 else -1

/-! ## A small backtracking regular-expression interpreter

Sufficient for the fixed patterns appearing in `content_validator.py`:
literals, character classes, concatenation, ordered alternation, greedy
`*` (with `+`, `?`, `{3,}` as derived forms), a single capture group and
the backreference `\1`.  Match priority mirrors Python `re`. -/

/-- Regular-expression syntax for the source's fixed patterns. -/
inductive RE where
  | eps
  | lit (c : Char)
  | cls (p : Char → Bool)
  | seq (a b : RE)
  | alt (a b : RE)
  | star (a : RE)
  | group (a : RE)
  | backref

namespace RE

/-- `a+` -/
def plus (a : RE) : RE := .seq a (.star a)

/-- `a?` (greedy: prefer matching `a`). -/
def opt (a : RE) : RE := .alt a .eps

/-- `a{3,}` -/
def atLeast3 (a : RE) : RE := .seq a (.seq a (plus a))

/-- Literal word: concatenation of character literals. -/
def lits (s : List Char) : RE :=
  s.foldr (fun c r => .seq (.lit c) r) .eps

/-- `\s*` -/
def wsStar : RE := .star (.cls Crawl.isPySpace)

/-- `\d*` -/
def digitsStar : RE := .star (.cls Crawl.isPyDigit)

end RE

/-- Backtracking matcher in continuation-passing style.  `matchR fuel re
s g k` tries to match `re` against a prefix of `s` with capture-group
state `g`, invoking the continuation `k` on the remaining input and
updated group in Python `re` priority order; the first success wins.
Greedy `star` prefers consuming another (non-empty) repetition; `alt`
prefers its left branch.  Fuel bounds the recursion depth and is not
exhausted for the fuel supplied by `subAll`. -/
def matchR : Nat → RE → List Char → Option (List Char) →
    (List Char → Option (List Char) → Option Nat) → Option Nat
  | 0, _, _, _, _ => none
  | _ + 1, .eps, s, g, k => k s g
  | _ + 1, .lit c, s, g, k =>
    match s with
    | [] => none
    | x :: xs => if x = c then k xs g else none
  | _ + 1, .cls p, s, g, k =>
    match s with
    | [] => none
    | x :: xs => if p x then k xs g else none
  | fuel + 1, .seq a b, s, g, k =>
    matchR fuel a s g (fun s' g' => matchR fuel b s' g' k)
  | fuel + 1, .alt a b, s, g, k =>
    (matchR fuel a s g k).orElse (fun _ => matchR fuel b s g k)
  | fuel + 1, .star a, s, g, k =>
    (matchR fuel a s g (fun s' g' =>
      if s'.length < s.length then matchR fuel (.star a) s' g' k
      else none)).orElse (fun _ => k s g)
  | fuel + 1, .group a, s, g, k =>
    matchR fuel a s g (fun s' _ => k s' (some (s.take (s.length - s'.length))))
  | _ + 1, .backref, s, g, k =>
    match g with
    | none => none
    | some w => if w.isPrefixOf s then k (s.drop w.length) g else none

/-- Size of a pattern, used only to compute a sufficient fuel. -/
def reSize : RE → Nat
  | .eps => 1
  | .lit _ => 1
  | .cls _ => 1
  | .seq a b => reSize a + reSize b + 1
  | .alt a b => reSize a + reSize b + 1
  | .star a => reSize a + 1
  | .group a => reSize a + 1
  | .backref => 1

/-- Length of the leftmost-priority match of `re` at the start of `s`
(`none` when the pattern does not match there). -/
def tryMatch (re : RE) (s : List Char) : Option Nat :=
  matchR ((reSize re + 2) * (s.length + 2)) re s none
    (fun rest _ => some (s.length - rest.length))

/-- `re.sub(re, repl, s)`: scan positions left to right, replace each
leftmost non-overlapping match.  None of the source's patterns matches
the empty string, so a successful match always consumes input; fuelled
for structural recursion. -/
def subAllF (re : RE) (repl : List Char) : List Char → Nat → List Char
  | [], _ => []
  | s, 0 => s
  | c :: rest, fuel + 1 =>
    match tryMatch re (c :: rest) with
    | some (n + 1) => repl ++ subAllF re repl (List.drop n rest) fuel
    | _ => c :: subAllF re repl rest fuel

/-- `re.sub` with empty-match-free patterns. -/
def subAll (re : RE) (repl : List Char) (s : List Char) : List Char :=
  subAllF re repl s s.length

/-- `re.sub(r'\s+', ' ', s)`: collapse every maximal whitespace run to a
single space.  Implemented as a direct scan (the boolean records being
inside a run whose replacement space was already emitted), which is
exactly the effect of the leftmost-greedy substitution. -/
def collapseWsGo : Bool → List Char → List Char
  | _, [] => []
  | inRun, c :: rest =>
    if isPySpace c then
      if inRun then collapseWsGo true rest
      else ' ' :: collapseWsGo true rest
    else c :: collapseWsGo false rest

/-- `re.sub(r'\s+', ' ', s)`. -/
def collapseWs (l : List Char) : List Char :=
  collapseWsGo false l

/-- String literal as `List Char`. -/
def chars (s : String) : List Char :=
  s.data

namespace RE

/-- Literal word from a string. -/
def w (s : String) : RE := lits s.data

/-- Optional single character (`c?`). -/
def optc (c : Char) : RE := opt (.lit c)

/-- Concatenation of a pattern list. -/
def reCat (rs : List RE) : RE := rs.foldr .seq .eps

end RE

/-! ## `content_validator.py` — `ContentValidator` -/

namespace ContentValidator

open RE

/-- `ExtractionConfig` from `content_extraction_models.py` (fields in
source order; `scroll_pause_time` is a float, hence `ℚ`). -/
structure ExtractionConfig where
  timeout_seconds : ℤ
  min_content_length : ℕ
  max_content_length : ℤ
  retry_count : ℤ
  enable_debug_screenshot : Bool
  enable_lazy_loading_trigger : Bool
  scroll_pause_time : ℚ

/-- The `__post_init__` validation of `ExtractionConfig`. -/
def ExtractionConfig.Valid (c : ExtractionConfig) : Prop :=
  0 < c.timeout_seconds ∧ (c.min_content_length : ℤ) < c.max_content_length ∧
    0 ≤ c.retry_count

/-- The default `ExtractionConfig()`. -/
def defaultConfig : ExtractionConfig :=
  ⟨30, 30, 2000, 3, true, true, 2⟩

/-- `_get_ui_text_patterns`, in source order. -/
def uiTextPatterns : List RE := [
  reCat [w ("로그인"), wsStar, w ("하세"), optc '요'],
  reCat [w ("로그인"), optc '이', wsStar, w ("필요합니"), optc '다'],
  w ("회원가입"),
  reCat [w ("아이디"), wsStar, w ("저장")],
  w ("메뉴"),
  reCat [w ("홈"), optc '으', w ("로")],
  reCat [w ("목록"), optc '으', w ("로")],
  reCat [w ("이전"), wsStar, w ("페이지")],
  reCat [w ("다음"), wsStar, w ("페이지")],
  reCat [w ("페이지"), wsStar, w ("이동")],
  reCat [w ("댓글"), wsStar, digitsStar, wsStar, optc '개'],
  reCat [w ("댓글"), wsStar, w ("쓰기")],
  reCat [w ("댓글"), wsStar, w ("등록")],
  w ("답글"),
  w ("대댓글"),
  w ("공유하기"),
  w ("스크랩"),
  reCat [w ("좋아요"), wsStar, digitsStar],
  reCat [w ("추천"), wsStar, digitsStar],
  w ("신고하기"),
  w ("수정하기"),
  w ("삭제하기"),
  reCat [w ("카페"), wsStar, w ("홈")],
  w ("게시판"),
  w ("검색"),
  reCat [w ("전체"), wsStar, w ("메뉴")],
  w ("더보기"),
  w ("접기"),
  w ("펼치기"),
  w ("새창"),
  w ("인쇄"),
  reCat [w ("글자"), wsStar, w ("크기")],
  reCat [w ("폰트"), wsStar, w ("설정")]]

/-- The class `[^\w\s가-힣]` of `_get_meaningless_patterns` (the Hangul
range is already inside `\w`; kept to mirror the source). -/
def isSymbolChar (c : Char) : Bool :=
  !(isPyWord c) && !(isPySpace c) && !(isHangul c)

/-- `_get_meaningless_patterns`, in source order: runs of three or more
symbols, a word repeated three or more times (`(\w+)\s*\1\s*\1+`),
advertising text, system messages, empty-content notices. -/
def meaninglessPatterns : List RE := [
  atLeast3 (.cls isSymbolChar),
  reCat [.group (plus (.cls isPyWord)), wsStar, .backref, wsStar, plus .backref],
  w ("광고"),
  w ("홍보"),
  reCat [w ("이벤트"), wsStar, w ("참여")],
  reCat [w ("할인"), wsStar, w ("쿠폰")],
  reCat [w ("시스템"), wsStar, w ("오류")],
  reCat [w ("페이지"), optc '를', wsStar, w ("찾을"), wsStar, w ("수"), wsStar, w ("없습니다")],
  reCat [w ("접근"), wsStar, w ("권한"), optc '이', wsStar, w ("없습니다")],
  reCat [w ("로딩"), wsStar, w ("중")],
  reCat [w ("잠시만"), wsStar, w ("기다려"), wsStar, w ("주세요")],
  reCat [w ("내용"), optc '이', wsStar, w ("없습니다")],
  reCat [w ("게시물"), optc '이', wsStar, w ("없습니다")],
  reCat [w ("작성된"), wsStar, w ("글"), optc '이', wsStar, w ("없습니다")]]

/-- `re.sub(r'<[^<>]*>', '', ...)`'s pattern. -/
def htmlTagRe : RE :=
  .seq (.lit '<') (.seq (.star (.cls (fun c => !(c = '<') && !(c = '>')))) (.lit '>'))

/-- The HTML entity table of `_remove_html_tags`, in insertion order. -/
def htmlEntities : List (List Char × List Char) := [
  (chars ("&amp;"), chars ("&")),
  (chars ("&lt;"), chars ("<")),
  (chars ("&gt;"), chars (">")),
  (chars ("&quot;"), [.ofNat 34]),
  (chars ("&#39;"), [.ofNat 39]),
  (chars ("&nbsp;"), chars (" "))]

/-- `_remove_html_tags`: strip tags in one pass, then decode the six
entities by sequential whole-string `str.replace`. -/
def remove_html_tags (content : List Char) : List Char :=
  htmlEntities.foldl
    (fun acc pr =>
      match pr.1 with
      | [] => acc
      | p0 :: prest => pyReplace p0 prest pr.2 acc)
    (subAll htmlTagRe [] content)

/-- `_remove_ui_text`: apply each UI pattern as `re.sub(p, '', ...)`. -/
def remove_ui_text (content : List Char) : List Char :=
  uiTextPatterns.foldl (fun acc p => subAll p [] acc) content

/-- `_remove_meaningless_patterns`. -/
def remove_meaningless_patterns (content : List Char) : List Char :=
  meaninglessPatterns.foldl (fun acc p => subAll p [] acc) content

/-- The pattern `\n\s*\n\s*\n+` of `_normalize_whitespace`'s second
substitution. -/
def tripleNewlineRe : RE :=
  reCat [.lit '\n', wsStar, .lit '\n', wsStar, plus (.lit '\n')]

/-- `_normalize_whitespace`: collapse whitespace runs to a single space,
then limit consecutive newlines (a no-op after the first step, kept for
fidelity). -/
def normalize_whitespace (content : List Char) : List Char :=
  subAll tripleNewlineRe (chars ("\n\n")) (collapseWs content)

/-- `clean_content` (Requirements 4.2): empty (falsy) content is
returned as is; otherwise strip, drop HTML tags, drop UI text, drop
meaningless patterns, normalize whitespace, strip. -/
def clean_content : List Char → List Char
  | [] => []
  | c :: rest =>
    pyStrip (normalize_whitespace (remove_meaningless_patterns
      (remove_ui_text (remove_html_tags (pyStrip (c :: rest))))))

/-- The sentence-ending characters (Korean full stop included) used by
`_truncate_content` and `_calculate_quality_score`. -/
def sentenceEndings : List Char := ['.', '!', '?', '。']

/-- The loop of `_truncate_content` computing the maximum `rfind`
position over the sentence endings, starting from `-1`. -/
def last_sentence_end (l : List Char) : ℤ :=
  sentenceEndings.foldl
    (fun acc c => let pos := lastIdxP (fun x => x = c) l; if acc < pos then pos else acc)
    (-1)

/-- `_truncate_content` (Requirements 4.4): keep short content; with
fewer than four characters of budget return `"..."`; otherwise cut at
`max_length - 3` and prefer a sentence end past 70% of the budget, then
a space past 80%, then a plain cut with `"..."` appended. -/
def truncate_content (content : List Char) (max_length : ℤ) : List Char :=
  if (content.length : ℤ) ≤ max_length then content
  else
    let actual : ℤ := max_length - 3
    if actual ≤ 0 then chars ("...")
    else
      let truncated := content.take actual.toNat
      let lastSE := last_sentence_end truncated
      if (actual : ℚ) * (7/10) < (lastSE : ℚ) then
        truncated.take (lastSE + 1).toNat
      else
        let lastSpace := lastIdxP (fun x => x = ' ') truncated
        if (actual : ℚ) * (4/5) < (lastSpace : ℚ) then
          truncated.take lastSpace.toNat ++ chars ("...")
        else
          pyRstrip truncated ++ chars ("...")

/-- `_calculate_meaningful_content_ratio`: base share of Hangul, ASCII
letters and digits, plus a sentence-indicator bonus capped at 0.2 and a
word-diversity bonus capped at 0.15, the total capped at 1. -/
def meaningful_frac (content : List Char) : ℚ :=
  if content.isEmpty then 0
  else
    let total : ℚ := (content.length : ℚ)
    let base : ℚ := ((content.countP isMeaningfulChar : ℕ) : ℚ) / total
    let sentenceBonus : ℚ :=
      min (((content.countP isSentenceIndicator : ℕ) : ℚ) / (total / 50)) (1/5)
    let words := tokenRuns isWordLetter content
    let diversityBonus : ℚ :=
      if words.isEmpty then 0
      else min (((words.dedup.length : ℚ) / (words.length : ℚ)) * (3/10)) (3/20)
    min (base + sentenceBonus + diversityBonus) 1

/-- `_calculate_quality_score`: 0.3 for satisfying the minimum length,
0.4 weighted by the meaningful fraction, up to 0.2 for length between
the minimum and twice the minimum, 0.05 each for several paragraphs
(split on a blank line) and several sentences, capped at 1.  (With
`min_content_length = 0` the Python source divides by zero; the claims
are settled at the default configuration, where the divisor is 60.) -/
def quality_score_calc (cfg : ExtractionConfig) (content : List Char)
    (min_length_valid : Bool) (meaningfulFrac : ℚ) : ℚ :=
  let s1 : ℚ := if min_length_valid then 3/10 else 0
  let s2 : ℚ := s1 + meaningfulFrac * (2/5)
  let length := content.length
  let s3 : ℚ :=
    if cfg.min_content_length ≤ length then
      s2 + min ((length : ℚ) / ((cfg.min_content_length : ℚ) * 2)) 1 * (1/5)
    else s2
  let s4 : ℚ :=
    if 1 < (pySplitSeq '\n' ['\n'] content).length then s3 + 1/20 else s3
  let s5 : ℚ :=
    if 2 < (splitOnPred (fun c => sentenceEndings.contains c) content).length then s4 + 1/20
    else s4
  min s5 1

/-- Issues reported by `validate_content`; the source formats these as
Korean strings carrying the same data. -/
inductive Issue where
  | tooShort (required : ℕ) (got : ℕ)
  | truncated (maxLen : ℤ)
  | lowFrac (frac : ℚ)
deriving DecidableEq

/-- `ValidationResult` from `content_extraction_models.py`. -/
structure ValidationResult where
  is_valid : Bool
  quality_score : ℚ
  issues : List Issue
  cleaned_content : List Char
  original_length : ℕ
  cleaned_length : ℕ

/-- `validate_content` (Requirements 4.1, 4.2, 4.4): clean, check the
minimum length on the cleaned text, truncate past the maximum length,
compute the meaningful fraction and quality score of the (possibly
truncated) text, and demand all three gates for validity. -/
def validate_content (cfg : ExtractionConfig) (content : List Char) : ValidationResult :=
  let original_length := content.length
  let cleaned := clean_content content
  let cl := cleaned.length
  let min_length_valid : Bool := cfg.min_content_length ≤ cl
  let issues1 : List Issue :=
    if min_length_valid then [] else [.tooShort cfg.min_content_length cl]
  let step3 : List Char × List Issue :=
    if cfg.max_content_length < (cl : ℤ) then
      (truncate_content cleaned cfg.max_content_length,
        issues1 ++ [.truncated cfg.max_content_length])
    else (cleaned, issues1)
  let cleaned2 := step3.1
  let frac := meaningful_frac cleaned2
  let issues3 : List Issue :=
    if frac < 3/10 then step3.2 ++ [.lowFrac frac] else step3.2
  let qs := quality_score_calc cfg cleaned2 min_length_valid frac
  { is_valid := min_length_valid && decide ((3/10 : ℚ) ≤ frac) && decide ((1/2 : ℚ) ≤ qs)
    quality_score := qs
    issues := issues3
    cleaned_content := cleaned2
    original_length := original_length
    cleaned_length := cleaned2.length }

end ContentValidator

/-! ## `content_extraction_models.py` — data models -/

/-- `ExtractionMethod` enumeration. -/
inductive ExtractionMethod where
  | smart_editor_3
  | smart_editor_2
  | general_editor
  | legacy_editor
  | javascript_extraction
  | dom_traversal
  | fallback
deriving DecidableEq

/-- `SelectorAttempt` dataclass. -/
structure SelectorAttempt where
  selector : List Char
  success : Bool
  content_length : ℕ
  error_message : Option (List Char)
  extraction_time_ms : Option ℕ
deriving DecidableEq

/-- `DebugInfo` dataclass. -/
structure DebugInfo where
  url : List Char
  page_ready_state : List Char
  body_html_length : ℕ
  editor_type_detected : Option (List Char)
  selector_attempts : List SelectorAttempt
  screenshot_path : Option (List Char)
  timestamp : Option (List Char)

/-- `ContentResult` dataclass (fields in source order). -/
structure ContentResult where
  content : List Char
  extraction_method : ExtractionMethod
  quality_score : ℚ
  debug_info : Option DebugInfo
  success : Bool
  error_message : Option (List Char)
  extraction_time_ms : Option ℕ

/-- Constructing a `ContentResult` runs `__post_init__`: the quality
score must lie in `[0, 1]` and a successful result must have non-empty
content; a violation raises `ValueError`, modelled as `Except.error`
carrying the source's message. -/
def mkContentResult (content : List Char) (extraction_method : ExtractionMethod)
    (quality_score : ℚ) (debug_info : Option DebugInfo) (success : Bool)
    (error_message : Option (List Char)) (extraction_time_ms : Option ℕ) :
    Except (List Char) ContentResult :=
  if 0 ≤ quality_score ∧ quality_score ≤ 1 then
    if success && content.isEmpty then
      .error (chars ("성공한 추출 결과는 content가 비어있을 수 없습니다"))
    else
      .ok ⟨content, extraction_method, quality_score, debug_info, success,
        error_message, extraction_time_ms⟩
  else .error (chars ("quality_score는 0.0과 1.0 사이의 값이어야 합니다"))

/-! ## `selector_strategies.py` — selector strategies and manager -/

namespace SelectorStrategies

/-- The `remove_patterns` list of `_basic_content_cleaning`. -/
def removePatterns : List (List Char) := [
  chars ("로그인"), chars ("메뉴"), chars ("목록"), chars ("이전글"),
  chars ("다음글"), chars ("카페앱으로 보기"), chars ("JavaScript"),
  chars ("댓글"), chars ("스크랩"), chars ("신고"), chars ("좋아요"),
  chars ("답글"), chars ("doesn\x27t work properly"),
  chars ("내용을 불러올 수 없습니다")]

/-- `SelectorStrategy._basic_content_cleaning`: split into lines, strip
each, keep lines longer than five characters containing none of the
removal patterns, join with newlines. -/
def basic_content_cleaning (content : List Char) : List Char :=
  if content.isEmpty then []
  else
    let lines := (splitOnPred (fun c => c = '\n') content).map pyStrip
    let filtered := lines.filter
      (fun l => 5 < l.length && removePatterns.all (fun p => !(containsSeq p l)))
    List.intercalate ['\n'] filtered

/-- The `invalid_patterns` list of `_is_valid_content`. -/
def invalidPatterns : List (List Char) := [
  chars ("내용을 불러올 수 없습니다"),
  chars ("JavaScript를 활성화"),
  chars ("로그인이 필요합니다"),
  chars ("접근 권한이 없습니다")]

/-- `SelectorStrategy._is_valid_content`: non-empty, at least 30
characters once stripped, and free of the boilerplate patterns. -/
def is_valid_content (content : List Char) : Bool :=
  !content.isEmpty && 30 ≤ (pyStrip content).length &&
    invalidPatterns.all (fun p => !(containsSeq p content))

/-- What the page yields for one CSS selector: no matching element, a
first element whose extracted text is `raw`, or a WebDriver exception
(which `extract_with_selectors` swallows and treats as a failed
selector). -/
inductive SelOutcome where
  | noElements
  | found (raw : List Char)
  | raises (msg : List Char)

/-- The body of `extract_with_selectors`' loop for one selector:
`some cleaned` when the selector is accepted (raw text truthy and longer
than 20 characters once stripped, and the basic-cleaned text valid),
`none` when the loop continues to the next selector. -/
def try_selector (page : List Char → SelOutcome) (sel : List Char) :
    Option (List Char) :=
  match page sel with
  | .noElements => none
  | .raises _ => none
  | .found raw =>
    if !raw.isEmpty && 20 < (pyStrip raw).length then
      let cleaned := basic_content_cleaning raw
      if is_valid_content cleaned then some cleaned else none
    else none

/-- `SelectorStrategy.extract_with_selectors` over a selector list, also
returning the trail of selectors examined (in order): the first accepted
selector's cleaned text is returned immediately and later selectors are
never examined. -/
def extract_with_selectors (page : List Char → SelOutcome) :
    List (List Char) → Option (List Char) × List (List Char)
  | [] => (none, [])
  | sel :: rest =>
    match try_selector page sel with
    | some c => (some c, [sel])
    | none =>
      let r := extract_with_selectors page rest
      (r.1, sel :: r.2)

/-- The four strategies managed by `SelectorStrategyManager`. -/
inductive StrategyId where
  | se3
  | se2
  | general
  | legacy
deriving DecidableEq

/-- The fixed construction order of `SelectorStrategyManager.__init__`:
SmartEditor 3.0, SmartEditor 2.0, general editor, legacy editor. -/
def strategyOrder : List StrategyId := [.se3, .se2, .general, .legacy]

/-- `get_strategy_name` of each strategy. -/
def strategy_name : StrategyId → List Char
  | .se3 => chars ("SmartEditor 3.0")
  | .se2 => chars ("SmartEditor 2.0")
  | .general => chars ("일반 에디터")
  | .legacy => chars ("레거시 에디터")

/-- `get_extraction_method` of each strategy. -/
def strategy_method : StrategyId → ExtractionMethod
  | .se3 => .smart_editor_3
  | .se2 => .smart_editor_2
  | .general => .general_editor
  | .legacy => .legacy_editor

/-- Environment of `extract_with_strategies`: what each strategy's
`extract_with_selectors` call produces on the current page — `ok none`
for no content, `ok (some c)` for extracted content `c`, `error e` for a
raised exception (caught by the manager) — plus the opaque wall-clock
reading used for the timing fields. -/
structure ManagerEnv where
  outcome : StrategyId → Except (List Char) (Option (List Char))
  elapsedMs : ℕ

/-- The dictionary returned by `extract_with_strategies`. -/
structure StrategyExtractResult where
  content : Option (List Char)
  strategy : Option (List Char)
  extraction_method : Option ExtractionMethod
  attempts : List SelectorAttempt

/-- The strategy loop of `extract_with_strategies`: try each strategy in
order, record one `SelectorAttempt` per strategy tried, return on the
first truthy content (a raised exception only fails that strategy). -/
def extract_with_strategies_go (env : ManagerEnv) :
    List StrategyId → List SelectorAttempt → StrategyExtractResult
  | [], acc => ⟨none, none, none, acc⟩
  | st :: rest, acc =>
    match env.outcome st with
    | .ok oc =>
      let att : SelectorAttempt :=
        ⟨strategy_name st, oc.isSome,
          (match oc with | some c => c.length | none => 0), none,
          some env.elapsedMs⟩
      match oc with
      | some c =>
        if c.isEmpty then extract_with_strategies_go env rest (acc ++ [att])
        else ⟨some c, some (strategy_name st), some (strategy_method st), acc ++ [att]⟩
      | none => extract_with_strategies_go env rest (acc ++ [att])
    | .error e =>
      extract_with_strategies_go env rest
        (acc ++ [⟨strategy_name st, false, 0, some e, some env.elapsedMs⟩])

/-- `SelectorStrategyManager.extract_with_strategies`: a total function
— every strategy-level exception is caught inside the loop, and when all
strategies fail the result carries `content = none` and the complete
attempt trail. -/
def extract_with_strategies (env : ManagerEnv) : StrategyExtractResult :=
  extract_with_strategies_go env strategyOrder []

end SelectorStrategies

/-! ## `content_extractor.py` — `ContentExtractor.extract_content` -/

namespace ContentExtractor

open ContentValidator SelectorStrategies

/-- Environment of one `extract_content` call: the outcome of each
side-effecting step (WebDriver and component calls), each of which can
raise.  `currentWindowHandle` models the
`self.driver.current_window_handle` read performed before the `try`
block; the remaining fields are consumed inside it.  `elapsedMs` stands
in for the wall clock. -/
structure ExtractorEnv where
  currentWindowHandle : Except (List Char) Unit
  collectPageInfo : Except (List Char) DebugInfo
  openTab : Except (List Char) Unit
  switchToNewTab : Except (List Char) Unit
  waitLoading : Except (List Char) Bool
  iframeSwitch : Except (List Char) Bool
  strategyOutcome : Except (List Char) StrategyExtractResult
  fallbackDomTraversal : Except (List Char) (Option (List Char))
  fallbackRefreshRetry : Except (List Char) (Option (List Char))
  saveScreenshot : Except (List Char) (Option (List Char))
  elapsedMs : ℕ

/-- The placeholder content stored on failure:
`"내용을 불러올 수 없습니다.\n원본 링크: {url}"`. -/
def placeholderContent (url : List Char) : List Char :=
  chars ("내용을 불러올 수 없습니다.\n원본 링크: ") ++ url

/-- Step 6 of `extract_content`: optional debug screenshot (a raise here
propagates to the top-level handler), then the all-methods-failed
`ContentResult`. -/
def failureResult (cfg : ExtractionConfig) (env : ExtractorEnv) (url : List Char)
    (dbg : DebugInfo) : Except (List Char) ContentResult := do
  let scr ← if cfg.enable_debug_screenshot then env.saveScreenshot else pure none
  let dbg2 := if cfg.enable_debug_screenshot then { dbg with screenshot_path := scr } else dbg
  mkContentResult (placeholderContent url) .fallback 0 (some dbg2) false
    (some (chars ("모든 추출 방법 실패"))) (some env.elapsedMs)

/-- Step 5 of `extract_content`: DOM-traversal fallback, then
refresh-and-retry when it produced nothing truthy, then validation; a
valid fallback succeeds with method `FALLBACK`, anything else reaches
step 6. -/
def fallbackPath (cfg : ExtractionConfig) (env : ExtractorEnv) (url : List Char)
    (dbg : DebugInfo) : Except (List Char) ContentResult := do
  let first ← env.fallbackDomTraversal
  let fc ←
    match first with
    | some c => if c.isEmpty then env.fallbackRefreshRetry else pure (some c)
    | none => env.fallbackRefreshRetry
  match fc with
  | some c =>
    if c.isEmpty then failureResult cfg env url dbg
    else
      let v := validate_content cfg c
      if v.is_valid then
        mkContentResult v.cleaned_content .fallback v.quality_score (some dbg)
          true none (some env.elapsedMs)
      else failureResult cfg env url dbg
  | none => failureResult cfg env url dbg

/-- The body of `extract_content`'s `try` block: collect debug info,
open and switch to a new tab, await loading and the iframe, run the
strategy manager, validate a strategy hit, otherwise fall back.  The
manager result's `extraction_method` accompanies truthy content (the
manager always sets it then); `getD .fallback` is a no-op default for
the unreachable `none`. -/
def tryBody (cfg : ExtractionConfig) (env : ExtractorEnv) (url : List Char) :
    Except (List Char) ContentResult := do
  let dbg ← env.collectPageInfo
  let _ ← env.openTab
  let _ ← env.switchToNewTab
  let _ ← env.waitLoading
  let _ ← env.iframeSwitch
  let strat ← env.strategyOutcome
  match strat.content with
  | some c =>
    if c.isEmpty then fallbackPath cfg env url dbg
    else
      let dbg2 := { dbg with selector_attempts := strat.attempts }
      let v := validate_content cfg c
      if v.is_valid then
        mkContentResult v.cleaned_content (strat.extraction_method.getD .fallback)
          v.quality_score (some dbg2) true none (some env.elapsedMs)
      else fallbackPath cfg env url dbg2
  | none => fallbackPath cfg env url dbg

/-- `ContentExtractor.extract_content`.  The `current_window_handle`
read precedes the `try` block, so its failure propagates; every
exception raised inside the block reaches the `except` handler, which
makes a best-effort screenshot (its own failure swallowed by an inner
bare `except`) and builds the failure `ContentResult` carrying the raw
error text (`str(e)`).  The handler's `debug_info` is the locals-capture
`debug_info.__dict__ if 'debug_info' in locals() else {}`, not inspected
by any claim and modelled as `none`.  The `finally` block only closes
the extra tab inside a bare `try`/`except: pass` and cannot change the
outcome. -/
def extract_content (cfg : ExtractionConfig) (env : ExtractorEnv) (url : List Char) :
    Except (List Char) ContentResult :=
  match env.currentWindowHandle with
  | .error e => .error e
  | .ok _ =>
    match tryBody cfg env url with
    | .ok r => .ok r
    | .error e =>
      mkContentResult (placeholderContent url) .fallback 0 none false
        (some e) (some env.elapsedMs)

end ContentExtractor

/-! ## Claim C9 — `ContentResult` construction invariant -/

/-- C9: constructing a `ContentResult` with `success = true` and empty
`content` fails with a validation error (never yields an `ok` value),
and every successfully constructed `ContentResult` whose `success` field
is `true` has non-empty `content`. -/
theorem C9_contentresult_success_nonempty :
    (∀ em q di errm etm,
      (mkContentResult [] em q di true errm etm).isOk = false) ∧
    (∀ c em q di succ errm etm r,
      mkContentResult c em q di succ errm etm = .ok r →
      r.success = true → r.content ≠ []) := by
  constructor
  · intro em q di errm etm
    unfold mkContentResult
    split
    · rfl
    · rfl
  · intro c em q di succ errm etm r h hs
    unfold mkContentResult at h
    split at h
    · by_cases he : (succ && c.isEmpty) = true
      · rw [if_pos he] at h
        exact absurd h (by simp)
      · rw [if_neg he] at h
        cases h
        simp only at hs
        subst hs
        simpa using he
    · exact absurd h (by simp)

/-- Witness for C9 at concrete inputs: the empty-content successful
construction is rejected, and from the accepted construction with
content `"hi"` the non-emptiness follows by the theorem. -/
theorem C9_contentresult_success_nonempty_witness :
    (mkContentResult [] .fallback 0 none true none none).isOk = false ∧
    (chars ("hi")) ≠ [] :=
  ⟨C9_contentresult_success_nonempty.1 .fallback 0 none none none,
    C9_contentresult_success_nonempty.2 (chars ("hi")) .fallback 0 none true
      none none
      ⟨chars ("hi"), .fallback, 0, none, true, none, none⟩ rfl rfl⟩

/-! ## Basic lemmas about the string primitives -/

theorem length_dropWhile_le {α : Type} (p : α → Bool) :
    ∀ l : List α, (l.dropWhile p).length ≤ l.length
  | [] => le_refl _
  | c :: rest => by
    rw [List.dropWhile_cons]
    split
    · exact (length_dropWhile_le p rest).trans (Nat.le_succ _)
    · exact le_refl _

theorem length_pyLstrip_le (l : List Char) : (pyLstrip l).length ≤ l.length :=
  length_dropWhile_le isPySpace l

theorem length_pyRstrip_le (l : List Char) : (pyRstrip l).length ≤ l.length := by
  unfold pyRstrip
  calc ((l.reverse.dropWhile isPySpace)).reverse.length
      = (l.reverse.dropWhile isPySpace).length := List.length_reverse _
    _ ≤ l.reverse.length := length_dropWhile_le isPySpace l.reverse
    _ = l.length := List.length_reverse _

theorem length_pyStrip_le (l : List Char) : (pyStrip l).length ≤ l.length :=
  (length_pyRstrip_le (pyLstrip l)).trans (length_pyLstrip_le l)

/-! ## Claim C3 — `SelectorStrategy.extract_with_selectors` -/

namespace SelectorStrategies

/-- The selector loop accepts the first selector whose
`try_selector` succeeds and stops there: helper for claim C3. -/
theorem extract_with_selectors_spec (page : List Char → SelOutcome) :
    ∀ (sels : List (List Char)) (i : ℕ) (hi : i < sels.length),
    (∀ j (hj : j < i), try_selector page (sels.get ⟨j, hj.trans hi⟩) = none) →
    ∀ c, try_selector page (sels.get ⟨i, hi⟩) = some c →
    extract_with_selectors page sels = (some c, sels.take (i + 1))
  | [], i, hi, _, _, _ => absurd hi (Nat.not_lt_zero i)
  | s :: rest, 0, _, _, c, hacc => by
    simp only [List.get] at hacc
    simp [extract_with_selectors, hacc]
  | s :: rest, i' + 1, hi, hprev, c, hacc => by
    have hi' : i' < rest.length := Nat.lt_of_succ_lt_succ hi
    have h0 : try_selector page s = none := hprev 0 (Nat.succ_pos i')
    have ihr := extract_with_selectors_spec page rest i' hi'
      (fun j hj => hprev (j + 1) (Nat.succ_lt_succ hj)) c hacc
    simp [extract_with_selectors, h0, ihr]

/-- C3: in the shared per-strategy extraction loop, selectors are tried
in priority order; the first selector whose element text passes the
length gate (truthy, more than 20 characters once stripped) and whose
basic-cleaned text is not recognized as invalid (`_is_valid_content`,
which also demands at least 30 characters) is accepted: its cleaned text
— itself longer than 20 characters — is returned immediately, the
selectors after it never being examined (the trail is exactly the first
`i + 1` selectors). -/
theorem C3_first_valid_selector_returned
    (page : List Char → SelOutcome) (sels : List (List Char)) (i : ℕ)
    (hi : i < sels.length)
    (hprev : ∀ j (hj : j < i), try_selector page (sels.get ⟨j, hj.trans hi⟩) = none)
    (raw : List Char)
    (hfound : page (sels.get ⟨i, hi⟩) = .found raw)
    (hne : raw ≠ [])
    (hlen : 20 < (pyStrip raw).length)
    (hvalid : is_valid_content (basic_content_cleaning raw) = true) :
    extract_with_selectors page sels =
      (some (basic_content_cleaning raw), sels.take (i + 1)) ∧
    20 < (basic_content_cleaning raw).length := by
  have hacc : try_selector page (sels.get ⟨i, hi⟩) =
      some (basic_content_cleaning raw) := by
    simp only [try_selector]
    rw [hfound]
    have hraw : raw.isEmpty = false := by cases raw <;> simp_all
    simp [hraw, hlen, hvalid]
  refine ⟨extract_with_selectors_spec page sels i hi hprev _ hacc, ?_⟩
  have h30 : 30 ≤ (pyStrip (basic_content_cleaning raw)).length := by
    simp only [is_valid_content, Bool.and_eq_true, decide_eq_true_eq] at hvalid
    exact hvalid.1.2
  have := length_pyStrip_le (basic_content_cleaning raw)
  omega

/-- Witness for C3: a two-selector page where the first selector has no
element and the second carries a long, valid body. -/
theorem C3_first_valid_selector_returned_witness :
    letI body := chars ("This is a real cafe post body with plenty of text.")
    letI page : List Char → SelOutcome :=
      fun sel => if sel = chars (".se-main-container") then .noElements
        else if sel = chars (".se-component-content") then .found body
        else .noElements
    letI sels := [chars (".se-main-container"), chars (".se-component-content")]
    extract_with_selectors page sels =
      (some (basic_content_cleaning (chars ("This is a real cafe post body with plenty of text."))), sels) ∧
    20 < (basic_content_cleaning (chars ("This is a real cafe post body with plenty of text."))).length := by
  have h := C3_first_valid_selector_returned
    (fun sel => if sel = chars (".se-main-container") then .noElements
      else if sel = chars (".se-component-content") then
        .found (chars ("This is a real cafe post body with plenty of text."))
      else .noElements)
    [chars (".se-main-container"), chars (".se-component-content")]
    1 (by decide)
    (fun j hj => by
      interval_cases j
      · exact rfl)
    (chars ("This is a real cafe post body with plenty of text."))
    rfl (by decide) (by decide) (by decide)
  exact h

end SelectorStrategies

namespace SelectorStrategies

/-- C6: the manager tries strategies in the fixed order SmartEditor 3.0,
SmartEditor 2.0, general editor, legacy editor, and returns the first
strategy's result: when both the SmartEditor-3 strategy and the
general-editor strategy would yield (truthy) content, the SmartEditor-3
content, name and extraction method are returned, and the attempt trail
is exactly the SmartEditor 3.0 entry — so every SmartEditor 3.0 entry
precedes every general-editor entry (the latter never occurring, the
general-editor strategy being unreached). -/
theorem C6_smarteditor3_wins_over_general
    (env : ManagerEnv) (c3 cg : List Char)
    (h3 : env.outcome .se3 = .ok (some c3)) (h3ne : c3 ≠ [])
    (_hg : env.outcome .general = .ok (some cg)) (_hgne : cg ≠ []) :
    (extract_with_strategies env).content = some c3 ∧
    (extract_with_strategies env).strategy = some (chars ("SmartEditor 3.0")) ∧
    (extract_with_strategies env).extraction_method = some .smart_editor_3 ∧
    (extract_with_strategies env).attempts.map SelectorAttempt.selector =
      [chars ("SmartEditor 3.0")] := by
  have h3e : c3.isEmpty = false := by cases c3 <;> simp_all
  simp [extract_with_strategies, extract_with_strategies_go, strategyOrder,
    h3, h3e, strategy_name, strategy_method]

/-- Witness for C6: a page where both the SmartEditor-3 and the
general-editor strategy yield content. -/
theorem C6_smarteditor3_wins_over_general_witness :
    letI env : ManagerEnv :=
      ⟨fun st =>
        match st with
        | .se3 => .ok (some (chars ("smarteditor three body text")))
        | .general => .ok (some (chars ("general editor body text")))
        | _ => .ok none, 0⟩
    (extract_with_strategies env).content =
        some (chars ("smarteditor three body text")) ∧
    (extract_with_strategies env).strategy = some (chars ("SmartEditor 3.0")) ∧
    (extract_with_strategies env).extraction_method = some .smart_editor_3 ∧
    (extract_with_strategies env).attempts.map SelectorAttempt.selector =
      [chars ("SmartEditor 3.0")] :=
  C6_smarteditor3_wins_over_general _ _ _ rfl (by decide) rfl (by decide)

/-- C7: when every strategy fails (returns no content or raises), the
manager returns normally — `extract_with_strategies` is a total
function, strategy-level exceptions being caught inside the loop — with
`content = none` and an attempt trail of exactly four entries, one per
strategy, in try order. -/
theorem C7_all_strategies_fail_trail
    (env : ManagerEnv)
    (h : ∀ st, env.outcome st = .ok none ∨ ∃ e, env.outcome st = .error e) :
    (extract_with_strategies env).content = none ∧
    (extract_with_strategies env).attempts.length = 4 ∧
    (extract_with_strategies env).attempts.map SelectorAttempt.selector =
      [chars ("SmartEditor 3.0"), chars ("SmartEditor 2.0"),
        chars ("일반 에디터"), chars ("레거시 에디터")] := by
  rcases h .se3 with h1 | ⟨e1, h1⟩ <;>
    rcases h .se2 with h2 | ⟨e2, h2⟩ <;>
      rcases h .general with h3 | ⟨e3, h3⟩ <;>
        rcases h .legacy with h4 | ⟨e4, h4⟩ <;>
          simp [extract_with_strategies, extract_with_strategies_go,
            strategyOrder, strategy_name, h1, h2, h3, h4]

/-- Witness for C7: a page yielding nothing for any strategy. -/
theorem C7_all_strategies_fail_trail_witness :
    letI env : ManagerEnv := ⟨fun _ => .ok none, 0⟩
    (extract_with_strategies env).content = none ∧
    (extract_with_strategies env).attempts.length = 4 ∧
    (extract_with_strategies env).attempts.map SelectorAttempt.selector =
      [chars ("SmartEditor 3.0"), chars ("SmartEditor 2.0"),
        chars ("일반 에디터"), chars ("레거시 에디터")] :=
  C7_all_strategies_fail_trail _ (fun _ => Or.inl rfl)

end SelectorStrategies

/-! ## Claim C1 — `ContentExtractor.extract_content` error handling -/

namespace ContentExtractor

open ContentValidator

/-- C1 counterexample: the claim says `extract_content` never raises for
any URL, but the `self.driver.current_window_handle` read happens before
the `try` block, so a WebDriver failure there — e.g. the browsing
context having crashed — propagates out of `extract_content` as an
exception.  Concretely, with every in-body step healthy but the
window-handle read failing, `extract_content` evaluates to an error, not
to a `ContentResult`. -/
theorem C1_window_handle_failure_propagates :
    letI env : ExtractorEnv :=
      ⟨.error (chars ("invalid session id: browsing context discarded")),
        .ok ⟨chars ("https://cafe.naver.com/x/1"), chars ("complete"), 0,
          none, [], none, none⟩,
        .ok (), .ok (), .ok true, .ok true,
        .ok ⟨none, none, none, []⟩, .ok none, .ok none, .ok none, 0⟩
    extract_content defaultConfig env (chars ("https://cafe.naver.com/x/1")) =
      .error (chars ("invalid session id: browsing context discarded")) :=
  rfl

/-- C1 (amended): once the pre-`try` read of the current window handle
has succeeded, `extract_content` never raises — it returns a
`ContentResult` — and any exception raised inside the `try` body is
converted into a `ContentResult` with `success = false`, the raw error
text as `error_message`, and the placeholder content referencing the
original URL. -/
theorem C1_extract_content_converts_body_exceptions
    (cfg : ExtractionConfig) (env : ExtractorEnv) (url : List Char)
    (hw : env.currentWindowHandle = .ok ()) :
    (extract_content cfg env url).isOk = true ∧
    (∀ e, tryBody cfg env url = .error e →
      extract_content cfg env url =
        .ok ⟨placeholderContent url, .fallback, 0, none, false,
          some e, some env.elapsedMs⟩) := by
  constructor
  · unfold extract_content
    rw [hw]
    cases htb : tryBody cfg env url with
    | ok r => rfl
    | error e =>
      unfold mkContentResult
      norm_num
      rfl
  · intro e he
    unfold extract_content
    rw [hw, he]
    unfold mkContentResult
    norm_num

/-- Witness for C1 (amended): an environment whose window-handle read
succeeds but whose debug-info collection raises; the exception is
converted into the failure `ContentResult`. -/
theorem C1_extract_content_converts_body_exceptions_witness :
    letI env : ExtractorEnv :=
      ⟨.ok (), .error (chars ("tab crashed")), .ok (), .ok (), .ok true,
        .ok true, .ok ⟨none, none, none, []⟩, .ok none, .ok none, .ok none, 7⟩
    extract_content defaultConfig env (chars ("https://cafe.naver.com/p/9")) =
      .ok ⟨placeholderContent (chars ("https://cafe.naver.com/p/9")),
        .fallback, 0, none, false, some (chars ("tab crashed")), some 7⟩ :=
  (C1_extract_content_converts_body_exceptions defaultConfig _ _ rfl).2
    (chars ("tab crashed")) rfl

end ContentExtractor

/-! ## Claim C8 — quality score bounds -/

namespace ContentValidator

theorem meaningful_frac_nonneg (l : List Char) : 0 ≤ meaningful_frac l := by
  unfold meaningful_frac
  dsimp only
  split
  · exact le_refl 0
  · refine le_min ?_ (by norm_num)
    refine add_nonneg (add_nonneg ?_ ?_) ?_
    · exact div_nonneg (by positivity) (by positivity)
    · exact le_min (div_nonneg (by positivity) (div_nonneg (by positivity) (by norm_num)))
        (by norm_num)
    · split
      · exact le_refl 0
      · exact le_min (mul_nonneg (div_nonneg (by positivity) (by positivity)) (by norm_num))
          (by norm_num)

theorem quality_score_calc_bounds (cfg : ExtractionConfig) (content : List Char)
    (mlv : Bool) (frac : ℚ) (hf : 0 ≤ frac) :
    0 ≤ quality_score_calc cfg content mlv frac ∧
    quality_score_calc cfg content mlv frac ≤ 1 := by
  unfold quality_score_calc
  dsimp only
  have hm : (0 : ℚ) ≤ min ((content.length : ℚ) / ((cfg.min_content_length : ℚ) * 2)) 1 :=
    le_min (div_nonneg (by positivity) (by positivity)) (by norm_num)
  constructor
  · refine le_min ?_ (by norm_num)
    split <;> split <;> split <;> split <;> linarith
  · exact min_le_right _ 1

/-- C8: for every input string, the `quality_score` field of the
`ValidationResult` returned by `validate_content` (default
configuration) lies in the closed interval `[0, 1]`. -/
theorem C8_quality_score_in_unit_interval (content : List Char) :
    0 ≤ (validate_content defaultConfig content).quality_score ∧
    (validate_content defaultConfig content).quality_score ≤ 1 := by
  unfold validate_content
  dsimp only
  exact quality_score_calc_bounds _ _ _ _ (meaningful_frac_nonneg _)

end ContentValidator

/-! ## Claim C5 — truncation idempotence -/

theorem neg_one_le_lastIdxP (p : Char → Bool) : ∀ l : List Char, -1 ≤ lastIdxP p l
  | [] => le_refl _
  | c :: rest => by
    rw [lastIdxP]
    have h := neg_one_le_lastIdxP p rest
    split_ifs <;> omega

theorem lastIdxP_lt_length (p : Char → Bool) :
    ∀ l : List Char, lastIdxP p l < (l.length : ℤ)
  | [] => by simp [lastIdxP]
  | c :: rest => by
    rw [lastIdxP]
    have h := lastIdxP_lt_length p rest
    simp only [List.length_cons]
    split_ifs <;> push_cast <;> omega

namespace ContentValidator

theorem last_sentence_end_lt_length (l : List Char) :
    last_sentence_end l < (l.length : ℤ) := by
  have h1 := lastIdxP_lt_length (fun x => x = '.') l
  have h2 := lastIdxP_lt_length (fun x => x = '!') l
  have h3 := lastIdxP_lt_length (fun x => x = '?') l
  have h4 := lastIdxP_lt_length (fun x => x = '。') l
  have h0 : (0 : ℤ) ≤ (l.length : ℤ) := by positivity
  simp only [last_sentence_end, sentenceEndings, List.foldl]
  split_ifs <;> omega

/-- C5: `_truncate_content` is idempotent — truncating an
already-truncated string with the same bound is a no-op, for every
string and every (integer) length bound. -/
theorem C5_truncate_content_idempotent (s : List Char) (N : ℤ) :
    truncate_content (truncate_content s N) N = truncate_content s N := by
  by_cases h1 : (s.length : ℤ) ≤ N
  · have hs : truncate_content s N = s := by rw [truncate_content, if_pos h1]
    rw [hs]
    exact hs
  · by_cases h2 : N - 3 ≤ 0
    · have hs : truncate_content s N = chars ("...") := by
        rw [truncate_content, if_neg h1, if_pos h2]
      rw [hs]
      by_cases h3 : ((chars ("...")).length : ℤ) ≤ N
      · rw [truncate_content, if_pos h3]
      · rw [truncate_content, if_neg h3, if_pos h2]
    · have hactpos : (0 : ℤ) < N - 3 := by omega
      have htlen : ((s.take (N - 3).toNat).length : ℤ) ≤ N - 3 := by
        have h4 : (s.take (N - 3).toNat).length ≤ (N - 3).toNat :=
          (List.length_take (N - 3).toNat s) ▸ min_le_left _ _
        omega
      by_cases hb1 : ((N - 3 : ℤ) : ℚ) * (7/10) <
          ((last_sentence_end (s.take (N - 3).toNat) : ℤ) : ℚ)
      · have hs : truncate_content s N = (s.take (N - 3).toNat).take
            (last_sentence_end (s.take (N - 3).toNat) + 1).toNat := by
          rw [truncate_content, if_neg h1, if_neg h2, if_pos hb1]
        have hr : (((s.take (N - 3).toNat).take
            (last_sentence_end (s.take (N - 3).toNat) + 1).toNat).length : ℤ) ≤ N := by
          have h5 : ((s.take (N - 3).toNat).take
              (last_sentence_end (s.take (N - 3).toNat) + 1).toNat).length ≤
              (s.take (N - 3).toNat).length :=
            (List.length_take _ _) ▸ min_le_right _ _
          omega
        rw [hs, truncate_content, if_pos hr]
      · by_cases hb2 : ((N - 3 : ℤ) : ℚ) * (4/5) <
            ((lastIdxP (fun x => x = ' ') (s.take (N - 3).toNat) : ℤ) : ℚ)
        · have hs : truncate_content s N = (s.take (N - 3).toNat).take
              (lastIdxP (fun x => x = ' ') (s.take (N - 3).toNat)).toNat ++
              chars ("...") := by
            rw [truncate_content, if_neg h1, if_neg h2, if_neg hb1, if_pos hb2]
          have hlt := lastIdxP_lt_length (fun x => x = ' ') (s.take (N - 3).toNat)
          have hr : (((s.take (N - 3).toNat).take
              (lastIdxP (fun x => x = ' ') (s.take (N - 3).toNat)).toNat ++
              chars ("...")).length : ℤ) ≤ N := by
            have h5 : ((s.take (N - 3).toNat).take
                (lastIdxP (fun x => x = ' ') (s.take (N - 3).toNat)).toNat).length ≤
                (lastIdxP (fun x => x = ' ') (s.take (N - 3).toNat)).toNat :=
              (List.length_take _ _) ▸ min_le_left _ _
            simp only [List.length_append]
            have h6 : (chars ("...")).length = 3 := rfl
            omega
          rw [hs, truncate_content, if_pos hr]
        · have hs : truncate_content s N =
              pyRstrip (s.take (N - 3).toNat) ++ chars ("...") := by
            rw [truncate_content, if_neg h1, if_neg h2, if_neg hb1, if_neg hb2]
          have hr : ((pyRstrip (s.take (N - 3).toNat) ++ chars ("...")).length : ℤ) ≤ N := by
            have h5 := length_pyRstrip_le (s.take (N - 3).toNat)
            simp only [List.length_append]
            have h6 : (chars ("...")).length = 3 := rfl
            omega
          rw [hs, truncate_content, if_pos hr]

end ContentValidator

/-! ## Whitespace invariants of the cleaning pipeline

`_normalize_whitespace` collapses every whitespace run to a single
space; consequently cleaned content never holds a newline, never holds
two adjacent whitespace characters, and is a fixed point of stripping.
These invariants drive claims C2, C4 and C10. -/

/-- No two adjacent whitespace characters. -/
def NoTwoWs (l : List Char) : Prop :=
  l.Chain' (fun a b => ¬(isPySpace a = true ∧ isPySpace b = true))

/-- Every whitespace character in the list is a plain space. -/
def OnlySpaceWs (l : List Char) : Prop :=
  ∀ c ∈ l, isPySpace c = true → c = ' '

theorem onlySpaceWs_collapseWsGo : ∀ (l : List Char) (b : Bool),
    OnlySpaceWs (collapseWsGo b l)
  | [], b => by intro c hc; rw [collapseWsGo] at hc; cases hc
  | x :: rest, b => by
    intro c hc hws
    rw [collapseWsGo] at hc
    by_cases hx : isPySpace x = true
    · rw [if_pos hx] at hc
      cases b with
      | true => exact onlySpaceWs_collapseWsGo rest true c hc hws
      | false =>
        simp only [Bool.false_eq_true, if_false] at hc
        rcases List.mem_cons.mp hc with h | h
        · exact h
        · exact onlySpaceWs_collapseWsGo rest true c h hws
    · rw [if_neg hx] at hc
      rcases List.mem_cons.mp hc with h | h
      · exact absurd (h ▸ hws) hx
      · exact onlySpaceWs_collapseWsGo rest false c h hws

theorem collapseWsGo_true_head : ∀ (l : List Char) (c : Char) (t : List Char),
    collapseWsGo true l = c :: t → isPySpace c = false
  | [], c, t => by intro h; rw [collapseWsGo] at h; cases h
  | x :: rest, c, t => by
    intro h
    rw [collapseWsGo] at h
    by_cases hx : isPySpace x = true
    · rw [if_pos hx, if_pos rfl] at h
      exact collapseWsGo_true_head rest c t h
    · rw [if_neg hx] at h
      cases h
      simpa using hx

theorem noTwoWs_collapseWsGo : ∀ (l : List Char) (b : Bool),
    NoTwoWs (collapseWsGo b l)
  | [], b => by rw [collapseWsGo]; exact List.chain'_nil
  | x :: rest, b => by
    rw [collapseWsGo]
    by_cases hx : isPySpace x = true
    · rw [if_pos hx]
      cases b with
      | true => exact noTwoWs_collapseWsGo rest true
      | false =>
        simp only [Bool.false_eq_true, if_false]
        refine List.chain'_cons'.mpr ⟨?_, noTwoWs_collapseWsGo rest true⟩
        intro y hy hcon
        cases hh : collapseWsGo true rest with
        | nil => rw [hh] at hy; cases hy
        | cons z t =>
          rw [hh] at hy
          simp only [List.head?_cons, Option.mem_def, Option.some.injEq] at hy
          subst hy
          exact absurd hcon.2 (by simp [collapseWsGo_true_head rest z t hh])
    · rw [if_neg hx]
      refine List.chain'_cons'.mpr ⟨?_, noTwoWs_collapseWsGo rest false⟩
      intro y _ hcon
      exact hx hcon.1

theorem collapseWsGo_true_eq_false (l : List Char)
    (hl : ∀ c t, l = c :: t → isPySpace c = false) :
    collapseWsGo true l = collapseWsGo false l := by
  cases l with
  | nil => rfl
  | cons c t =>
    rw [collapseWsGo, collapseWsGo, if_neg (by simp [hl c t rfl]),
      if_neg (by simp [hl c t rfl])]

theorem collapseWsGo_false_eq_self : ∀ l : List Char,
    NoTwoWs l → OnlySpaceWs l → collapseWsGo false l = l
  | [], _, _ => rfl
  | x :: rest, hn, ho => by
    rw [collapseWsGo]
    by_cases hx : isPySpace x = true
    · rw [if_pos hx]
      simp only [Bool.false_eq_true, if_false]
      have hxsp : x = ' ' := ho x (List.mem_cons_self x rest) hx
      have hhead : ∀ c t, rest = c :: t → isPySpace c = false := by
        intro c t hct
        subst hct
        have := (List.chain'_cons'.mp hn).1 c (by simp)
        by_contra hcc
        exact this ⟨hx, by simpa using hcc⟩
      rw [collapseWsGo_true_eq_false rest hhead,
        collapseWsGo_false_eq_self rest (List.Chain'.tail hn)
          (fun c hc hcw => ho c (List.mem_cons_of_mem x hc) hcw), hxsp]
    · rw [if_neg hx]
      rw [collapseWsGo_false_eq_self rest (List.Chain'.tail hn)
        (fun c hc hcw => ho c (List.mem_cons_of_mem x hc) hcw)]

theorem collapseWs_eq_self (l : List Char) (h1 : NoTwoWs l) (h2 : OnlySpaceWs l) :
    collapseWs l = l :=
  collapseWsGo_false_eq_self l h1 h2

theorem noNl_of_onlySpaceWs (l : List Char) (h : OnlySpaceWs l) : '\n' ∉ l := by
  intro hm
  have := h _ hm (by decide)
  exact absurd this (by decide)

theorem noTwoWs_collapseWs (l : List Char) : NoTwoWs (collapseWs l) :=
  noTwoWs_collapseWsGo l false

theorem onlySpaceWs_collapseWs (l : List Char) : OnlySpaceWs (collapseWs l) :=
  onlySpaceWs_collapseWsGo l false

/-- A pattern starting with a mandatory literal cannot match at a
position holding a different character. -/
theorem matchR_seq_lit_ne (fuel : Nat) (c0 : Char) (X : RE) (c : Char)
    (rest : List Char) (g : Option (List Char))
    (k : List Char → Option (List Char) → Option Nat) (hc : c ≠ c0) :
    matchR fuel (.seq (.lit c0) X) (c :: rest) g k = none := by
  match fuel with
  | 0 => rfl
  | fuel + 1 =>
    show matchR fuel (.lit c0) (c :: rest) g _ = none
    match fuel with
    | 0 => rfl
    | f + 1 =>
      show (if c = c0 then _ else none) = none
      rw [if_neg hc]

theorem tryMatch_tripleNewline_ne (c : Char) (rest : List Char) (hc : c ≠ '\n') :
    tryMatch ContentValidator.tripleNewlineRe (c :: rest) = none := by
  have hre : ContentValidator.tripleNewlineRe =
      .seq (.lit '\n') (.seq RE.wsStar (.seq (.lit '\n')
        (.seq RE.wsStar (.seq (RE.plus (.lit '\n')) .eps)))) := rfl
  rw [tryMatch, hre]
  exact matchR_seq_lit_ne _ _ _ _ _ _ _ hc

theorem subAllF_tripleNewline_id : ∀ (l : List Char) (fuel : Nat), '\n' ∉ l →
    subAllF ContentValidator.tripleNewlineRe (chars ("\n\n")) l fuel = l
  | [], fuel, _ => by cases fuel <;> rfl
  | _ :: _, 0, _ => rfl
  | c :: rest, fuel + 1, h => by
    have hc : c ≠ '\n' := fun hh => h (hh ▸ List.mem_cons_self c rest)
    rw [subAllF, tryMatch_tripleNewline_ne c rest hc]
    exact congrArg (c :: ·)
      (subAllF_tripleNewline_id rest fuel (fun hm => h (List.mem_cons_of_mem c hm)))

/-- The second substitution of `_normalize_whitespace` is inert: after
whitespace collapsing there is no newline left for `\n\s*\n\s*\n+` to
match, so `_normalize_whitespace` coincides with the collapsing pass. -/
theorem normalize_whitespace_eq_collapseWs (l : List Char) :
    ContentValidator.normalize_whitespace l = collapseWs l := by
  rw [ContentValidator.normalize_whitespace, subAll]
  exact subAllF_tripleNewline_id _ _
    (noNl_of_onlySpaceWs _ (onlySpaceWs_collapseWsGo l false))

/-- Unfolding equations for `clean_content`, stated once so later proofs
can rewrite without re-deriving them. -/
theorem clean_content_nil_eq : ContentValidator.clean_content [] = [] := rfl

theorem clean_content_cons_eq (a : Char) (t : List Char) :
    ContentValidator.clean_content (a :: t) =
      pyStrip (ContentValidator.normalize_whitespace
        (ContentValidator.remove_meaningless_patterns
          (ContentValidator.remove_ui_text
            (ContentValidator.remove_html_tags (pyStrip (a :: t)))))) := rfl

theorem dropWhile_head_false {α : Type} (p : α → Bool) :
    ∀ (l : List α) (c : α) (t : List α), l.dropWhile p = c :: t → p c = false
  | [], c, t => by intro h; cases h
  | x :: rest, c, t => by
    intro h
    rw [List.dropWhile_cons] at h
    split at h
    · exact dropWhile_head_false p rest c t h
    · cases h
      simp_all

theorem pyLstrip_pyRstrip_pyLstrip (l : List Char) :
    pyLstrip (pyRstrip (pyLstrip l)) = pyRstrip (pyLstrip l) := by
  rcases hh : pyRstrip (pyLstrip l) with _ | ⟨c, t⟩
  · rfl
  · have hpre : pyRstrip (pyLstrip l) <+: pyLstrip l :=
      List.rdropWhile_prefix isPySpace (pyLstrip l)
    rw [hh] at hpre
    obtain ⟨u, hu⟩ := hpre
    have hc : isPySpace c = false := by
      rcases hl : pyLstrip l with _ | ⟨c', t'⟩
      · rw [hl] at hu; cases hu
      · have := dropWhile_head_false isPySpace l c' t' hl
        rw [hl] at hu
        cases hu
        exact this
    rw [pyLstrip, List.dropWhile_cons, if_neg (by simp [hc])]

theorem pyStrip_idem (l : List Char) : pyStrip (pyStrip l) = pyStrip l := by
  show pyRstrip (pyLstrip (pyRstrip (pyLstrip l))) = pyRstrip (pyLstrip l)
  rw [pyLstrip_pyRstrip_pyLstrip l]
  exact List.rdropWhile_idempotent isPySpace _

theorem noTwoWs_pyStrip (l : List Char) (h : NoTwoWs l) : NoTwoWs (pyStrip l) :=
  List.Chain'.prefix
    (List.Chain'.suffix h (List.dropWhile_suffix isPySpace))
    ( List.rdropWhile_prefix isPySpace (pyLstrip l))

theorem onlySpaceWs_pyStrip (l : List Char) (h : OnlySpaceWs l) :
    OnlySpaceWs (pyStrip l) := by
  intro c hc hw
  refine h c ?_ hw
  have h1 : c ∈ pyLstrip l :=
    ( List.rdropWhile_prefix isPySpace (pyLstrip l)).sublist.mem hc
  exact (List.dropWhile_suffix isPySpace).sublist.mem h1

theorem noTwoWs_take (l : List Char) (n : ℕ) (h : NoTwoWs l) :
    NoTwoWs (l.take n) :=
  List.Chain'.take h n

/-- Under `NoTwoWs`, a leading whitespace run has length at most one. -/
theorem length_le_dropWhile_ws_succ (l : List Char) (h : NoTwoWs l) :
    l.length ≤ (l.dropWhile isPySpace).length + 1 := by
  cases l with
  | nil => simp
  | cons a rest =>
    rw [List.dropWhile_cons]
    split
    · cases rest with
      | nil => simp
      | cons b t =>
        have hb : ¬isPySpace b = true := by
          intro hbw
          exact (List.chain'_cons'.mp h).1 b (by simp) ⟨by assumption, hbw⟩
        rw [List.dropWhile_cons, if_neg (by simpa using hb)]
        simp
    · simp

/-- Under `NoTwoWs`, `rstrip` removes at most one character. -/
theorem length_le_pyRstrip_succ (l : List Char) (h : NoTwoWs l) :
    l.length ≤ (pyRstrip l).length + 1 := by
  have hrev : NoTwoWs l.reverse := by
    refine List.chain'_reverse.mpr ?_
    exact List.Chain'.imp (fun a b hab hc => hab ⟨hc.2, hc.1⟩) h
  have := length_le_dropWhile_ws_succ l.reverse hrev
  unfold pyRstrip
  rw [List.length_reverse] at this ⊢
  omega

theorem noTwoWs_nil : NoTwoWs ([] : List Char) := List.chain'_nil

attribute [irreducible] NoTwoWs

/-- Invariants of cleaned content: no two adjacent whitespace
characters, every whitespace character a plain space, and stripping is a
no-op. -/
theorem clean_content_inv (s : List Char) :
    NoTwoWs (ContentValidator.clean_content s) ∧
    OnlySpaceWs (ContentValidator.clean_content s) ∧
    pyStrip (ContentValidator.clean_content s) = ContentValidator.clean_content s := by
  cases s with
  | nil =>
    rw [clean_content_nil_eq]
    exact ⟨noTwoWs_nil, fun c hc => absurd hc (List.not_mem_nil c), rfl⟩
  | cons a t =>
    rw [clean_content_cons_eq, normalize_whitespace_eq_collapseWs]
    exact ⟨noTwoWs_pyStrip _ (noTwoWs_collapseWs _),
      onlySpaceWs_pyStrip _ (onlySpaceWs_collapseWs _),
      pyStrip_idem _⟩

theorem noNl_clean_content (s : List Char) :
    '\n' ∉ ContentValidator.clean_content s :=
  noNl_of_onlySpaceWs _ (clean_content_inv s).2.1

/-! ## Claim C10 — no newline survives cleaning -/

theorem splitSeqF_no_newline : ∀ (l : List Char) (fuel : ℕ), '\n' ∉ l →
    splitSeqF '\n' ['\n'] l fuel = [l]
  | [], fuel, _ => by cases fuel <;> rfl
  | _ :: _, 0, _ => rfl
  | c :: rest, fuel + 1, h => by
    have hc : c ≠ '\n' := fun hh => h (hh ▸ List.mem_cons_self c rest)
    have hpre : ((['\n', '\n'] : List Char).isPrefixOf (c :: rest)) = false := by
      simp [List.isPrefixOf]
      intro hh
      exact absurd hh.symm hc
    rw [splitSeqF, if_neg (by simp [hpre])]
    rw [splitSeqF_no_newline rest fuel (fun hm => h (List.mem_cons_of_mem c hm))]

/-- C10: the output of `clean_content` never contains a newline — every
whitespace run, line breaks included, is collapsed to a single space —
so splitting cleaned content on the blank-line separator `"\n\n"` always
yields exactly one part, and the multi-paragraph bonus of
`_calculate_quality_score` can never fire on content produced by
`clean_content`. -/
theorem C10_clean_content_no_newline (s : List Char) :
    '\n' ∉ ContentValidator.clean_content s ∧
    (pySplitSeq '\n' ['\n'] (ContentValidator.clean_content s)).length = 1 := by
  refine ⟨noNl_clean_content s, ?_⟩
  rw [pySplitSeq, splitSeqF_no_newline _ _ (noNl_clean_content s)]
  rfl

/-! ## Claim C2 — the three validity gates -/

namespace ContentValidator

/-- At the default maximum length 2000, truncation of whitespace-normal
content never drops below the minimum length 30: the sentence cut keeps
at least 70% of the budget, the space cut at least 80%, and the plain
cut loses at most one trailing space before appending `"..."`. -/
theorem truncate_2000_length_ge (t : List Char) (h : NoTwoWs t)
    (hlen : 2000 < t.length) :
    30 ≤ (truncate_content t 2000).length := by
  have h1 : ¬((t.length : ℤ) ≤ 2000) := by exact_mod_cast Nat.not_le.mpr hlen
  have h2 : ¬((2000 : ℤ) - 3 ≤ 0) := by norm_num
  have hlt : (t.take ((2000 : ℤ) - 3).toNat).length = 1997 := by
    rw [List.length_take]
    omega
  by_cases hb1 : (((2000 : ℤ) - 3 : ℤ) : ℚ) * (7/10) <
      ((last_sentence_end (t.take ((2000 : ℤ) - 3).toNat) : ℤ) : ℚ)
  · rw [truncate_content, if_neg h1, if_neg h2, if_pos hb1]
    have hse : (1398 : ℤ) ≤ last_sentence_end (t.take ((2000 : ℤ) - 3).toNat) := by
      have hq : (13979 : ℚ) <
          10 * ((last_sentence_end (t.take ((2000 : ℤ) - 3).toNat) : ℤ) : ℚ) := by
        push_cast at hb1 ⊢
        linarith
      have hz : (13979 : ℤ) < 10 * last_sentence_end (t.take ((2000 : ℤ) - 3).toNat) := by
        exact_mod_cast hq
      omega
    rw [List.length_take]
    omega
  · by_cases hb2 : (((2000 : ℤ) - 3 : ℤ) : ℚ) * (4/5) <
        ((lastIdxP (fun x => x = ' ') (t.take ((2000 : ℤ) - 3).toNat) : ℤ) : ℚ)
    · rw [truncate_content, if_neg h1, if_neg h2, if_neg hb1, if_pos hb2]
      have hsp : (1598 : ℤ) ≤ lastIdxP (fun x => x = ' ') (t.take ((2000 : ℤ) - 3).toNat) := by
        have hq : (7988 : ℚ) <
            5 * ((lastIdxP (fun x => x = ' ') (t.take ((2000 : ℤ) - 3).toNat) : ℤ) : ℚ) := by
          push_cast at hb2 ⊢
          linarith
        have hz : (7988 : ℤ) <
            5 * lastIdxP (fun x => x = ' ') (t.take ((2000 : ℤ) - 3).toNat) := by
          exact_mod_cast hq
        omega
      rw [List.length_append, List.length_take]
      have h3 : (chars ("...")).length = 3 := rfl
      omega
    · rw [truncate_content, if_neg h1, if_neg h2, if_neg hb1, if_neg hb2]
      have hr := length_le_pyRstrip_succ (t.take ((2000 : ℤ) - 3).toNat)
        (noTwoWs_take t _ h)
      rw [List.length_append]
      have h3 : (chars ("...")).length = 3 := rfl
      omega

/-- C2: under the default configuration, `validate_content`'s `is_valid`
is `true` exactly when all three gates hold — the cleaned length reaches
the 30-character minimum, the meaningful fraction of the (possibly
truncated) cleaned content reaches 0.30, and the quality score reaches
0.50.  (The minimum-length gate is checked by the source before
truncation; at the default maximum 2000 this coincides with the returned
`cleaned_length`, by `truncate_2000_length_ge`.) -/
theorem C2_is_valid_iff_three_gates (content : List Char) :
    (validate_content defaultConfig content).is_valid = true ↔
      (30 ≤ (validate_content defaultConfig content).cleaned_length ∧
        (3/10 : ℚ) ≤ meaningful_frac
          ((validate_content defaultConfig content).cleaned_content) ∧
        (1/2 : ℚ) ≤ (validate_content defaultConfig content).quality_score) := by
  unfold validate_content
  dsimp only [defaultConfig]
  by_cases htr : (2000 : ℤ) < ((clean_content content).length : ℤ)
  · rw [if_pos htr]
    dsimp only
    have hP1 : 30 ≤ (clean_content content).length := by
      have : (2000 : ℤ) < ((clean_content content).length : ℤ) := htr
      omega
    have hQ1 : 30 ≤ (truncate_content (clean_content content) 2000).length :=
      truncate_2000_length_ge _ (clean_content_inv content).1 (by exact_mod_cast htr)
    simp [hP1, hQ1, and_assoc]
  · rw [if_neg htr]
    dsimp only
    simp [and_assoc]

end ContentValidator

/-! ## Claim C4 — (non-)idempotence of `clean_content` -/

/-- C4 counterexample: the removal stages of `clean_content` are
single-pass `re.sub` scans, so removing a nested HTML tag can expose a
new one.  On `"a<<b>c>"` the first pass removes only `"<b>"`, leaving
`"a<c>"`; a second pass removes the newly exposed `"<c>"`, leaving
`"a"`.  Hence `clean_content (clean_content s) ≠ clean_content s` at
this input, refuting idempotence for every string. -/
theorem C4_clean_content_not_idempotent :
    ContentValidator.clean_content
        (ContentValidator.clean_content (chars ("a<<b>c>"))) ≠
      ContentValidator.clean_content (chars ("a<<b>c>")) := by decide

/-- C4 (amended): `clean_content` is idempotent on every input whose
cleaned form is a fixed point of the three removal stages (HTML-tag and
entity removal, UI-text removal, meaningless-pattern removal) — the
whitespace normalization and stripping of a second pass are then no-ops
by the cleaning invariants.  The original claim (idempotence for every
string) fails only because one removal pass can leave new removable
occurrences behind, as in the counterexample. -/
theorem C4_clean_content_idempotent_on_removal_fixed_points (s : List Char)
    (h1 : ContentValidator.remove_html_tags (ContentValidator.clean_content s) =
      ContentValidator.clean_content s)
    (h2 : ContentValidator.remove_ui_text (ContentValidator.clean_content s) =
      ContentValidator.clean_content s)
    (h3 : ContentValidator.remove_meaningless_patterns (ContentValidator.clean_content s) =
      ContentValidator.clean_content s) :
    ContentValidator.clean_content (ContentValidator.clean_content s) =
      ContentValidator.clean_content s := by
  obtain ⟨hn, ho, hstrip⟩ := clean_content_inv s
  cases hcl : ContentValidator.clean_content s with
  | nil => rw [clean_content_nil_eq]
  | cons a t =>
    rw [hcl] at h1 h2 h3 hn ho hstrip
    rw [clean_content_cons_eq, hstrip, h1, h2, h3,
      normalize_whitespace_eq_collapseWs, collapseWs_eq_self _ hn ho]
    exact hstrip

/-- Witness for the amended C4 at the concrete input `"ab cd. ok"`,
whose cleaned form is untouched by every removal stage. -/
theorem C4_clean_content_idempotent_witness :
    (ContentValidator.remove_html_tags
        (ContentValidator.clean_content (chars ("ab cd. ok"))) =
      ContentValidator.clean_content (chars ("ab cd. ok"))) ∧
    (ContentValidator.remove_ui_text
        (ContentValidator.clean_content (chars ("ab cd. ok"))) =
      ContentValidator.clean_content (chars ("ab cd. ok"))) ∧
    (ContentValidator.remove_meaningless_patterns
        (ContentValidator.clean_content (chars ("ab cd. ok"))) =
      ContentValidator.clean_content (chars ("ab cd. ok"))) ∧
    ContentValidator.clean_content
        (ContentValidator.clean_content (chars ("ab cd. ok"))) =
      ContentValidator.clean_content (chars ("ab cd. ok")) :=
  ⟨by decide, by decide, by decide,
    C4_clean_content_idempotent_on_removal_fixed_points _
      (by decide) (by decide) (by decide)⟩

end Crawl
